import Mathlib

/-!
Verification of the invoice-secret and incoming-swap core of the wallet.

The embedding follows the Go sources:
  * `walletdb` namespace : the SQL-backed invoice store (src/unnamed/part_001,
    package walletdb).
  * top level            : package libwallet, file invoices.go.

Bytes are modelled as `List Nat`, byte strings from external libraries
(transactions, onion packets, signatures) likewise.  64-bit unsigned values
are `Nat` understood mod 2^64 (masking is written exactly as in the source).
Signed 64-bit amounts are `Int`.  Time instants are abstract `Nat` ticks.

External cryptographic libraries (SHA-256, BIP-32 derivation, zpay32
encoding, sphinx validation, transaction (de)serialization and signing) are
modelled as oracle parameters: the wallet code only composes their results,
so every theorem below is quantified over the oracles.  Storage-level
failures of the SQL engine are modelled by the fault flags in `DBFaults`;
when a flag is set the corresponding operation reports an error and leaves
the table untouched, which is how a failed transactional statement behaves.
-/

/-- Error kinds, following §7 of the design and the `fmt.Errorf` sites in
invoices.go.  Distinct constructors keep distinct failure sites apart. -/
inductive Err where
  | storage
  | notFound
  | crypto
  | encoding
  | invalidHashLen
  | amountMismatch
  | sphinxInvalid
  | missingHtlc
  | deserializeFailed
  | txInCount
  | txOutCount
  | signFailed
  | serializeFailed
deriving DecidableEq, Repr

/-- Fault-injection flags for the backing SQL engine: a set flag makes the
corresponding store operation fail (as gorm would on an I/O error). -/
structure DBFaults where
  openFails : Bool := false
  countFails : Bool := false
  createFails : Bool := false
  saveFails : Bool := false
  findFirstFails : Bool := false
  findByHashFails : Bool := false
deriving DecidableEq, Repr

namespace walletdb

/-- `InvoiceState`: "registered" | "used" (package walletdb). -/
inductive InvoiceState where
  | registered
  | used
deriving DecidableEq, Repr

/-- The persisted invoice record (walletdb.Invoice).  `id` is the gorm
primary key; `keyPath` holds the two non-hardened child indices `l1, l2`
under the fixed base `m/schema:1'/recovery:1'/invoices:4`. -/
structure Invoice where
  id : Nat
  preimage : List Nat
  paymentHash : List Nat
  paymentSecret : List Nat
  keyPath : List Nat
  shortChanId : Nat
  amountSat : Int
  state : InvoiceState
  usedAt : Option Nat
deriving DecidableEq, Repr

/-- The invoice table: rows in primary-key (insertion) order, plus the next
auto-increment id. -/
structure Store where
  invoices : List Invoice
  nextId : Nat
deriving DecidableEq, Repr

/-- `invoice.ShortChanId & 0x7FFFFFFFFFFFFFFF` — the on-disk representation
(CreateInvoice / SaveInvoice mask the high bit before writing). -/
def toDisk (inv : Invoice) : Invoice :=
  { inv with shortChanId := inv.shortChanId &&& 0x7FFFFFFFFFFFFFFF }

/-- `invoice.ShortChanId | (1 << 63)` — the in-memory representation (the
store sets the high bit on every record it hands back). -/
def setHighBit (inv : Invoice) : Invoice :=
  { inv with shortChanId := inv.shortChanId ||| (1 <<< 63) }

/-- gorm `Save` on a record with a non-zero primary key: update the rows
whose id matches. -/
def replaceById (l : List Invoice) (inv : Invoice) : List Invoice :=
  l.map (fun r => if r.id = inv.id then inv else r)

/-- DB.CreateInvoice: mask the high bit, INSERT (assigning the
auto-increment id), then set the high bit on the in-memory copy.  On
failure nothing is inserted. -/
def CreateInvoice (f : DBFaults) (st : Store) (inv : Invoice) :
    Except Err Invoice × Store :=
  let disk := toDisk { inv with id := st.nextId }
  if f.createFails then (.error .storage, st)
  else (.ok (setHighBit disk),
        { invoices := st.invoices ++ [disk], nextId := st.nextId + 1 })

/-- DB.SaveInvoice: mask the high bit, UPDATE by primary key, then set the
high bit on the in-memory copy.  On failure nothing is written. -/
def SaveInvoice (f : DBFaults) (st : Store) (inv : Invoice) :
    Except Err Invoice × Store :=
  let disk := toDisk inv
  if f.saveFails then (.error .storage, st)
  else (.ok (setHighBit disk),
        { st with invoices := replaceById st.invoices disk })

/-- DB.FindFirstUnusedInvoice: first row with state "registered" in
primary-key order, high bit restored; a missing row is `none`, not an
error. -/
def FindFirstUnusedInvoice (f : DBFaults) (st : Store) :
    Except Err (Option Invoice) :=
  if f.findFirstFails then .error .storage
  else .ok ((st.invoices.find? (fun r => r.state = InvoiceState.registered)).map setHighBit)

/-- DB.CountUnusedInvoices: number of rows with state "registered". -/
def CountUnusedInvoices (f : DBFaults) (st : Store) : Except Err Nat :=
  if f.countFails then .error .storage
  else .ok ((st.invoices.filter (fun r => r.state = InvoiceState.registered)).length)

/-- DB.FindByPaymentHash: first row with the given payment hash, high bit
restored; here a missing row IS an error (gorm record-not-found is
propagated). -/
def FindByPaymentHash (f : DBFaults) (st : Store) (hash : List Nat) :
    Except Err Invoice :=
  if f.findByHashFails then .error .storage
  else
    match st.invoices.find? (fun r => r.paymentHash = hash) with
    | none => .error .notFound
    | some inv => .ok (setHighBit inv)

end walletdb

/-- `MaxUnusedSecrets = 5` (invoices.go). -/
def MaxUnusedSecrets : Nat := 5

/-- `identityKeyChildIndex = 0`. -/
def identityKeyChildIndex : Nat := 0

/-- `htlcKeyChildIndex = 1`. -/
def htlcKeyChildIndex : Nat := 1

/-- libwallet.InvoiceSecrets: the bundle entry produced by the generator.
Derived public keys are abstract tokens (`Nat`).  `shortChanId` is the
64-bit value; Go stores it as int64 and converts back with `uint64`, an
identity on the 64-bit pattern. -/
structure InvoiceSecrets where
  preimage : List Nat
  paymentSecret : List Nat
  keyPath : List Nat
  paymentHash : List Nat
  identityKey : Nat
  userHtlcKey : Nat
  muunHtlcKey : Nat
  shortChanId : Nat
deriving DecidableEq, Repr

/-- The random draws consumed by one iteration of the generator loop, in
the order the Go code calls `randomBytes`. -/
structure Draws where
  preimage : List Nat
  paymentSecret : List Nat
  levels : List Nat
  scid : List Nat
deriving DecidableEq, Repr

/-- Little-endian byte-list to Nat (binary.LittleEndian.Uint32/Uint64 on
the listed bytes). -/
def leVal : List Nat → Nat
  | [] => 0
  | b :: rest => b + 256 * leVal rest

/-- BIP-32 public derivation under the user and muun roots; `none` models
a derivation error.  The argument is the child-index list below the fixed
schema base. -/
structure DeriveEnv where
  userDeriveTo : List Nat → Option Nat
  muunDeriveTo : List Nat → Option Nat

/-- One iteration of the GenerateInvoiceSecrets loop: draw the preimage,
payment secret, path levels (masked with 0x7FFFFFFF) and short channel id
(high bit set), and derive the three public keys; any derivation error
aborts the whole call. -/
def mkSecret (sha : List Nat → List Nat) (d : Draws) (dv : DeriveEnv) :
    Except Err InvoiceSecrets :=
  let preimage := d.preimage
  let paymentSecret := d.paymentSecret
  let paymentHash := sha preimage
  let l1 := leVal (d.levels.take 4) &&& 0x7FFFFFFF
  let l2 := leVal (d.levels.drop 4) &&& 0x7FFFFFFF
  let keyPath := [l1, l2]
  match dv.userDeriveTo (keyPath ++ [identityKeyChildIndex]) with
  | none => .error .crypto
  | some identityKey =>
  match dv.userDeriveTo (keyPath ++ [htlcKeyChildIndex]) with
  | none => .error .crypto
  | some userHtlcKey =>
  match dv.muunDeriveTo (keyPath ++ [htlcKeyChildIndex]) with
  | none => .error .crypto
  | some muunHtlcKey =>
    .ok { preimage := preimage
          paymentSecret := paymentSecret
          keyPath := keyPath
          paymentHash := paymentHash
          identityKey := identityKey
          userHtlcKey := userHtlcKey
          muunHtlcKey := muunHtlcKey
          shortChanId := leVal d.scid ||| (1 <<< 63) }

/-- The generator loop: iterations `i, i+1, ...` for `n` rounds, appending
in order; the first error aborts. -/
def buildSecrets (sha : List Nat → List Nat) (draws : Nat → Draws)
    (dv : DeriveEnv) (i : Nat) : Nat → Except Err (List InvoiceSecrets)
  | 0 => .ok []
  | n + 1 =>
    match mkSecret sha (draws i) dv with
    | .error e => .error e
    | .ok s =>
      match buildSecrets sha draws dv (i + 1) n with
      | .error e => .error e
      | .ok rest => .ok (s :: rest)

/-- libwallet.GenerateInvoiceSecrets: count the unused (Registered)
records; at or above the cap return an empty bundle, otherwise build
`MaxUnusedSecrets - unused` fresh secrets.  Nothing is persisted. -/
def GenerateInvoiceSecrets (sha : List Nat → List Nat) (draws : Nat → Draws)
    (dv : DeriveEnv) (f : DBFaults) (st : walletdb.Store) :
    Except Err (List InvoiceSecrets) × walletdb.Store :=
  if f.openFails then (.error .storage, st) else
  match walletdb.CountUnusedInvoices f st with
  | .error e => (.error e, st)
  | .ok unused =>
    if unused ≥ MaxUnusedSecrets then (.ok [], st)
    else
      match buildSecrets sha draws dv 0 (MaxUnusedSecrets - unused) with
      | .error e => (.error e, st)
      | .ok secrets => (.ok secrets, st)

/-- The walletdb.Invoice row built by PersistInvoiceSecrets from one
secret (state Registered, amount and used_at unset, id assigned by the
store). -/
def invoiceOfSecret (s : InvoiceSecrets) : walletdb.Invoice :=
  { id := 0
    preimage := s.preimage
    paymentHash := s.paymentHash
    paymentSecret := s.paymentSecret
    keyPath := s.keyPath
    shortChanId := s.shortChanId
    amountSat := 0
    state := walletdb.InvoiceState.registered
    usedAt := none }

/-- The persist loop body: `db.CreateInvoice(...)` is called and its result
is DISCARDED — the Go code ignores the returned error, so a failed create
leaves the store as it was and the loop continues. -/
def persistLoop (f : DBFaults) : List InvoiceSecrets → walletdb.Store → walletdb.Store
  | [], st => st
  | s :: rest, st =>
    persistLoop f rest (walletdb.CreateInvoice f st (invoiceOfSecret s)).2

/-- libwallet.PersistInvoiceSecrets: open the db, then write each secret
with state Registered; per-record create errors are ignored and the
function returns nil. -/
def PersistInvoiceSecrets (f : DBFaults) (list : List InvoiceSecrets)
    (st : walletdb.Store) : Except Err Unit × walletdb.Store :=
  if f.openFails then (.error .storage, st)
  else (.ok (), persistLoop f list st)

/-- libwallet.InvoiceOptions. -/
structure InvoiceOptions where
  description : String
  amountSat : Int
deriving DecidableEq, Repr

/-- Oracles for the external steps of libwallet.CreateInvoice, in call
order: parsePubKey on the route-hint pubkey, zpay32.NewInvoice, DeriveTo
on the identity path, ECPrivKey, and invoice.Encode (the bech32 signing
step). -/
structure CreateEnv where
  parsePubKeyOk : Bool
  newInvoiceOk : Bool
  deriveTo : List Nat → Option Nat
  ecPriv : Nat → Option Nat
  encodeResult : Except Unit String

/-- libwallet.CreateInvoice: take the first unused secret (absence is not
an error and yields ""), build and sign the invoice, then mark the record
Used (state, amount_sat, used_at) and save it; the bech32 string is
returned only after the save succeeded. -/
def CreateInvoice (env : CreateEnv) (f : DBFaults) (opts : InvoiceOptions)
    (now : Nat) (st : walletdb.Store) : Except Err String × walletdb.Store :=
  if f.openFails then (.error .storage, st) else
  match walletdb.FindFirstUnusedInvoice f st with
  | .error e => (.error e, st)
  | .ok none => (.ok "", st)
  | .ok (some dbInvoice) =>
    if env.parsePubKeyOk then
      if env.newInvoiceOk then
        match env.deriveTo (dbInvoice.keyPath ++ [identityKeyChildIndex]) with
        | none => (.error .crypto, st)
        | some hd =>
          match env.ecPriv hd with
          | none => (.error .crypto, st)
          | some _ =>
            match env.encodeResult with
            | .error _ => (.error .encoding, st)
            | .ok bech32 =>
              let upd := { dbInvoice with
                             amountSat := opts.amountSat,
                             state := walletdb.InvoiceState.used,
                             usedAt := some now }
              let saved := walletdb.SaveInvoice f st upd
              match saved.1 with
              | .error e => (.error e, saved.2)
              | .ok _ => (.ok bech32, saved.2)
      else (.error .encoding, st)
    else (.error .crypto, st)

/-- libwallet.IncomingSwapHtlc. -/
structure IncomingSwapHtlc where
  htlcTx : List Nat
  expirationHeight : Int
  swapServerPublicKey : List Nat
deriving DecidableEq, Repr

/-- libwallet.IncomingSwap. -/
structure IncomingSwap where
  htlc : Option IncomingSwapHtlc
  sphinxPacket : List Nat
  paymentHash : List Nat
  paymentAmountSat : Int
  collectSat : Int
deriving DecidableEq, Repr

/-- libwallet.IncomingSwapFulfillmentData (unused fields kept for wire
compatibility). -/
structure IncomingSwapFulfillmentData where
  fulfillmentTx : List Nat
  muunSignature : List Nat
  outputVersion : Int
  outputPath : String
  merkleTree : List Nat
  htlcBlock : List Nat
  blockHeight : Int
  confirmationTarget : Int
deriving DecidableEq, Repr

/-- libwallet.IncomingSwapFulfillmentResult. -/
structure IncomingSwapFulfillmentResult where
  fulfillmentTx : List Nat
  preimage : List Nat
deriving DecidableEq, Repr

/-- Go `uint64(x)` on an int64 value: the two's-complement bit pattern as
a Nat. -/
def toUint64 (i : Int) : Nat := (i % ((2 : Int) ^ 64)).toNat

/-- `lnwire.MilliSatoshi(uint64(s.PaymentAmountSat) * 1000)`. -/
def amountMsat (i : Int) : Nat := (toUint64 i * 1000) % 2 ^ 64

/-- Oracles for VerifyFulfillable: BIP-32 private derivation, ECPrivKey
extraction, and sphinx.Validate (arguments: packet, payment hash, payment
secret, node key, amount in msat, network). -/
structure VerifyEnv where
  deriveTo : List Nat → Option Nat
  ecPriv : Nat → Option Nat
  sphinxValid : List Nat → List Nat → List Nat → Nat → Nat → Nat → Bool

/-- (*IncomingSwap).VerifyFulfillable: check the hash length, look the
invoice up by payment hash, derive the node key, apply the asymmetric
amount check (`invoice.AmountSat != 0 && invoice.AmountSat >
s.PaymentAmountSat` fails), then validate the sphinx packet — unless it is
empty, in which case validation is skipped and the call succeeds. -/
def VerifyFulfillable (env : VerifyEnv) (f : DBFaults) (s : IncomingSwap)
    (net : Nat) (st : walletdb.Store) : Except Err Unit × walletdb.Store :=
  if s.paymentHash.length ≠ 32 then (.error .invalidHashLen, st) else
  if f.openFails then (.error .storage, st) else
  match walletdb.FindByPaymentHash f st s.paymentHash with
  | .error e => (.error e, st)
  | .ok invoice =>
    match env.deriveTo (invoice.keyPath ++ [identityKeyChildIndex]) with
    | none => (.error .crypto, st)
    | some hd =>
      match env.ecPriv hd with
      | none => (.error .crypto, st)
      | some nodeKey =>
        if invoice.amountSat ≠ 0 ∧ invoice.amountSat > s.paymentAmountSat then
          (.error .amountMismatch, st)
        else if s.sphinxPacket.length = 0 then (.ok (), st)
        else if env.sphinxValid s.sphinxPacket s.paymentHash
                  invoice.paymentSecret nodeKey
                  (amountMsat s.paymentAmountSat) net then (.ok (), st)
        else (.error .sphinxInvalid, st)

/-- The deserialized fulfillment transaction (wire.MsgTx): inputs and
outputs are opaque tokens, only their multiplicity is inspected here. -/
structure MsgTx where
  txIn : List Nat
  txOut : List Nat
deriving DecidableEq, Repr

/-- The coinIncomingSwap value assembled by Fulfill before signing. -/
structure CoinIncomingSwap where
  muunSignature : List Nat
  sphinx : List Nat
  htlcTx : List Nat
  paymentHash256 : List Nat
  swapServerPublicKey : List Nat
  expirationHeight : Int
  verifyOutputAmount : Bool
  collect : Int
deriving DecidableEq, Repr

/-- Oracles for Fulfill: VerifyFulfillable's oracles plus
tx.DeserializeNoWitness, coin.SignInput and tx.Serialize. -/
structure FulfillEnv where
  venv : VerifyEnv
  deserializeNoWitness : List Nat → Option MsgTx
  signInput : CoinIncomingSwap → MsgTx → Option MsgTx
  serializeTx : MsgTx → Option (List Nat)

/-- (*IncomingSwap).Fulfill: require the htlc, verify fulfillability,
deserialize the proposed tx without witness data and require exactly one
input and one output, re-read the invoice, sign input 0 and serialize. -/
def Fulfill (env : FulfillEnv) (f : DBFaults) (s : IncomingSwap)
    (data : IncomingSwapFulfillmentData) (net : Nat) (st : walletdb.Store) :
    Except Err IncomingSwapFulfillmentResult × walletdb.Store :=
  match s.htlc with
  | none => (.error .missingHtlc, st)
  | some htlc =>
    match VerifyFulfillable env.venv f s net st with
    | (.error e, st1) => (.error e, st1)
    | (.ok _, st1) =>
      match env.deserializeNoWitness data.fulfillmentTx with
      | none => (.error .deserializeFailed, st1)
      | some tx =>
        if tx.txIn.length ≠ 1 then (.error .txInCount, st1) else
        if tx.txOut.length ≠ 1 then (.error .txOutCount, st1) else
        if f.openFails then (.error .storage, st1) else
        match walletdb.FindByPaymentHash f st1 s.paymentHash with
        | .error e => (.error e, st1)
        | .ok invoice =>
          let coin : CoinIncomingSwap :=
            { muunSignature := data.muunSignature
              sphinx := s.sphinxPacket
              htlcTx := htlc.htlcTx
              paymentHash256 := s.paymentHash
              swapServerPublicKey := htlc.swapServerPublicKey
              expirationHeight := htlc.expirationHeight
              verifyOutputAmount := true
              collect := s.collectSat }
          match env.signInput coin tx with
          | none => (.error .signFailed, st1)
          | some signedTx =>
            match env.serializeTx signedTx with
            | none => (.error .serializeFailed, st1)
            | some bytes =>
              (.ok { fulfillmentTx := bytes, preimage := invoice.preimage }, st1)

/-- (*IncomingSwap).FulfillFullDebt: look the invoice up by payment hash
and return its preimage with an empty fulfillment tx. -/
def FulfillFullDebt (f : DBFaults) (s : IncomingSwap) (st : walletdb.Store) :
    Except Err IncomingSwapFulfillmentResult × walletdb.Store :=
  if f.openFails then (.error .storage, st) else
  match walletdb.FindByPaymentHash f st s.paymentHash with
  | .error e => (.error e, st)
  | .ok secrets => (.ok { fulfillmentTx := [], preimage := secrets.preimage }, st)

/-! ### Concrete fixtures used to exercise the model at specific inputs -/

/-- A fixed 32-byte payment hash. -/
def wHash : List Nat := List.replicate 32 0

/-- A registered invoice row with a 1000-sat amount. -/
def wInvoice : walletdb.Invoice :=
  { id := 1
    preimage := [7]
    paymentHash := wHash
    paymentSecret := [2]
    keyPath := [3, 4]
    shortChanId := 5
    amountSat := 1000
    state := walletdb.InvoiceState.registered
    usedAt := none }

/-- A store holding just `wInvoice`. -/
def wStore : walletdb.Store := { invoices := [wInvoice], nextId := 2 }

/-- An empty store. -/
def wEmptyStore : walletdb.Store := { invoices := [], nextId := 1 }

/-- A store already holding five registered rows (the cap). -/
def wFullStore : walletdb.Store :=
  { invoices := List.replicate 5 wInvoice, nextId := 6 }

/-- No injected storage faults. -/
def wFaults : DBFaults := {}

/-- Storage faults making every per-record create fail. -/
def wCreateFaults : DBFaults := { createFails := true }

/-- Derivation and sphinx oracles that always succeed. -/
def wVerifyEnv : VerifyEnv :=
  { deriveTo := fun _ => some 0
    ecPriv := fun _ => some 0
    sphinxValid := fun _ _ _ _ _ _ => true }

/-- A swap underpaying the 1000-sat invoice (500 sat), without htlc. -/
def wSwap : IncomingSwap :=
  { htlc := none
    sphinxPacket := []
    paymentHash := wHash
    paymentAmountSat := 500
    collectSat := 0 }

/-- A swap overpaying the 1000-sat invoice (1500 sat), without onion. -/
def wSwapOver : IncomingSwap :=
  { htlc := none
    sphinxPacket := []
    paymentHash := wHash
    paymentAmountSat := 1500
    collectSat := 0 }

/-- The htlc data for the structural-check fixture. -/
def wHtlc : IncomingSwapHtlc :=
  { htlcTx := [1], expirationHeight := 10, swapServerPublicKey := [2] }

/-- The overpaying swap with htlc data attached. -/
def wSwapHtlc : IncomingSwap := { wSwapOver with htlc := some wHtlc }

/-- Fulfillment data fixture (contents irrelevant: deserialization is an
oracle). -/
def wData : IncomingSwapFulfillmentData :=
  { fulfillmentTx := []
    muunSignature := []
    outputVersion := 0
    outputPath := ""
    merkleTree := []
    htlcBlock := []
    blockHeight := 0
    confirmationTarget := 0 }

/-- Fulfill oracles whose deserializer yields a 2-input, 1-output tx. -/
def wFulfillEnv : FulfillEnv :=
  { venv := wVerifyEnv
    deserializeNoWitness := fun _ => some { txIn := [0, 1], txOut := [0] }
    signInput := fun _ _ => none
    serializeTx := fun _ => none }

/-- CreateInvoice oracles that all succeed and encode to "lnbc1". -/
def wCreateEnv : CreateEnv :=
  { parsePubKeyOk := true
    newInvoiceOk := true
    deriveTo := fun _ => some 0
    ecPriv := fun _ => some 0
    encodeResult := .ok "lnbc1" }

/-- Invoice options fixture. -/
def wOpts : InvoiceOptions := { description := "d", amountSat := 42 }

/-- Generator randomness fixture: every iteration draws the same bytes. -/
def wDraws : Nat → Draws := fun _ =>
  { preimage := List.replicate 32 1
    paymentSecret := List.replicate 32 2
    levels := List.replicate 8 3
    scid := List.replicate 8 4 }

/-- SHA-256 oracle fixture with 32-byte output. -/
def wSha : List Nat → List Nat := fun _ => List.replicate 32 9

/-- Derivation oracles for the generator that always succeed. -/
def wDeriveEnv : DeriveEnv :=
  { userDeriveTo := fun _ => some 0, muunDeriveTo := fun _ => some 0 }

/-- The secret each iteration of the generator produces under the fixtures
above. -/
def wSecret : InvoiceSecrets :=
  { preimage := List.replicate 32 1
    paymentSecret := List.replicate 32 2
    keyPath := [leVal ((wDraws 0).levels.take 4) &&& 0x7FFFFFFF,
                leVal ((wDraws 0).levels.drop 4) &&& 0x7FFFFFFF]
    paymentHash := wSha (List.replicate 32 1)
    identityKey := 0
    userHtlcKey := 0
    muunHtlcKey := 0
    shortChanId := leVal ((wDraws 0).scid) ||| (1 <<< 63) }

/-- Registered-row count of a store (the value CountUnusedInvoices
reports). -/
def countRegistered (st : walletdb.Store) : Nat :=
  (st.invoices.filter (fun r => r.state = walletdb.InvoiceState.registered)).length

/-! ### Bit-level helper lemmas for the short-channel-id round trip -/

theorem and_mask_testBit63 (x : Nat) :
    (x &&& 0x7FFFFFFFFFFFFFFF).testBit 63 = false := by
  have hm : (0x7FFFFFFFFFFFFFFF : Nat) = 2 ^ 63 - 1 := by norm_num
  rw [hm, Nat.testBit_and, Nat.testBit_two_pow_sub_one]
  simp

theorem and_mask_testBit_lt (x i : Nat) (h : i < 63) :
    (x &&& 0x7FFFFFFFFFFFFFFF).testBit i = x.testBit i := by
  have hm : (0x7FFFFFFFFFFFFFFF : Nat) = 2 ^ 63 - 1 := by norm_num
  rw [hm, Nat.testBit_and, Nat.testBit_two_pow_sub_one]
  simp [h]

theorem or_high_testBit63 (x : Nat) :
    (x ||| (1 <<< 63)).testBit 63 = true := by
  have hs : (1 <<< 63 : Nat) = 2 ^ 63 := by rw [Nat.shiftLeft_eq, one_mul]
  rw [hs, Nat.testBit_or, Nat.testBit_two_pow_self]
  simp

theorem or_high_testBit_lt (x i : Nat) (h : i < 63) :
    (x ||| (1 <<< 63)).testBit i = x.testBit i := by
  have hs : (1 <<< 63 : Nat) = 2 ^ 63 := by rw [Nat.shiftLeft_eq, one_mul]
  rw [hs, Nat.testBit_or, Nat.testBit_two_pow_of_ne (by omega)]
  simp

/-! ### Store helper lemmas -/

theorem replaceById_mem_eq {l : List walletdb.Invoice} {d r : walletdb.Invoice}
    (hr : r ∈ walletdb.replaceById l d) (hid : r.id = d.id) : r = d := by
  unfold walletdb.replaceById at hr
  rcases List.mem_map.1 hr with ⟨x, hx, hxr⟩
  by_cases h : x.id = d.id
  · rw [if_pos h] at hxr
    exact hxr.symm
  · rw [if_neg h] at hxr
    rw [← hxr] at hid
    exact absurd hid h

theorem replaceById_mem_self {l : List walletdb.Invoice} {d x : walletdb.Invoice}
    (hx : x ∈ l) (hid : x.id = d.id) : d ∈ walletdb.replaceById l d := by
  unfold walletdb.replaceById
  exact List.mem_map.2 ⟨x, hx, by rw [if_pos hid]⟩

theorem verifyFulfillable_store_eq (env : VerifyEnv) (f : DBFaults)
    (s : IncomingSwap) (net : Nat) (st : walletdb.Store) :
    (VerifyFulfillable env f s net st).2 = st := by
  unfold VerifyFulfillable
  repeat' split
  all_goals rfl

theorem fulfill_store_eq (env : FulfillEnv) (f : DBFaults) (s : IncomingSwap)
    (data : IncomingSwapFulfillmentData) (net : Nat) (st : walletdb.Store) :
    (Fulfill env f s data net st).2 = st := by
  unfold Fulfill
  cases hh : s.htlc with
  | none => rfl
  | some htlc =>
    have hv := verifyFulfillable_store_eq env.venv f s net st
    rcases hV : VerifyFulfillable env.venv f s net st with ⟨r1, st1⟩
    rw [hV] at hv
    simp only at hv
    subst hv
    cases r1 with
    | error e => rfl
    | ok u =>
      simp only
      repeat' split
      all_goals rfl

theorem fulfillFullDebt_store_eq (f : DBFaults) (s : IncomingSwap)
    (st : walletdb.Store) : (FulfillFullDebt f s st).2 = st := by
  unfold FulfillFullDebt
  repeat' split
  all_goals rfl

/-- C10: VerifyFulfillable, Fulfill and FulfillFullDebt are read-only with
respect to the invoice store: whatever the inputs and the outcome, the
store they return is exactly the store they were given — every record, and
hence every record's state, amount_sat and used_at, is unchanged. -/
theorem swap_entry_points_read_only (venv : VerifyEnv) (fenv : FulfillEnv)
    (f : DBFaults) (s : IncomingSwap) (data : IncomingSwapFulfillmentData)
    (net : Nat) (st : walletdb.Store) :
    (VerifyFulfillable venv f s net st).2 = st ∧
    (Fulfill fenv f s data net st).2 = st ∧
    (FulfillFullDebt f s st).2 = st :=
  ⟨verifyFulfillable_store_eq venv f s net st,
   fulfill_store_eq fenv f s data net st,
   fulfillFullDebt_store_eq f s st⟩

/-- C5: short-channel-id high-bit round trip.  For CreateInvoice and
SaveInvoice the row written to disk has bit 63 cleared while the in-memory
record handed back has bit 63 set, with identical low 63 bits (also equal
to the low 63 bits of the record passed in); FindFirstUnusedInvoice and
FindByPaymentHash return records with bit 63 set whose low 63 bits equal
those of some stored row. -/
theorem shortChanId_high_bit_round_trip :
    (∀ (f : DBFaults) (st : walletdb.Store) (inv inv2 : walletdb.Invoice)
        (st2 : walletdb.Store),
      walletdb.CreateInvoice f st inv = (.ok inv2, st2) →
      ∃ disk, st2.invoices = st.invoices ++ [disk] ∧
        disk.shortChanId.testBit 63 = false ∧
        inv2.shortChanId.testBit 63 = true ∧
        (∀ i, i < 63 → disk.shortChanId.testBit i = inv2.shortChanId.testBit i ∧
                       disk.shortChanId.testBit i = inv.shortChanId.testBit i)) ∧
    (∀ (f : DBFaults) (st : walletdb.Store) (inv inv2 : walletdb.Invoice)
        (st2 : walletdb.Store),
      walletdb.SaveInvoice f st inv = (.ok inv2, st2) →
      ∃ disk, st2.invoices = walletdb.replaceById st.invoices disk ∧
        disk.shortChanId.testBit 63 = false ∧
        inv2.shortChanId.testBit 63 = true ∧
        (∀ i, i < 63 → disk.shortChanId.testBit i = inv2.shortChanId.testBit i ∧
                       disk.shortChanId.testBit i = inv.shortChanId.testBit i)) ∧
    (∀ (f : DBFaults) (st : walletdb.Store) (v : walletdb.Invoice),
      walletdb.FindFirstUnusedInvoice f st = .ok (some v) →
      v.shortChanId.testBit 63 = true ∧
      ∃ r, r ∈ st.invoices ∧
        ∀ i, i < 63 → v.shortChanId.testBit i = r.shortChanId.testBit i) ∧
    (∀ (f : DBFaults) (st : walletdb.Store) (hash : List Nat)
        (v : walletdb.Invoice),
      walletdb.FindByPaymentHash f st hash = .ok v →
      v.shortChanId.testBit 63 = true ∧
      ∃ r, r ∈ st.invoices ∧
        ∀ i, i < 63 → v.shortChanId.testBit i = r.shortChanId.testBit i) := by
  refine ⟨?_, ?_, ?_, ?_⟩
  · intro f st inv inv2 st2 h
    unfold walletdb.CreateInvoice at h
    by_cases hc : f.createFails
    · simp [hc] at h
    · simp only [hc, if_false, Bool.false_eq_true] at h
      obtain ⟨h1, h2⟩ := Prod.mk.injEq .. ▸ h
      refine ⟨walletdb.toDisk { inv with id := st.nextId }, ?_, ?_, ?_, ?_⟩
      · rw [← h2]
      · exact and_mask_testBit63 _
      · rw [← Except.ok.inj h1]
        exact or_high_testBit63 _
      · intro i hi
        rw [← Except.ok.inj h1]
        exact ⟨(or_high_testBit_lt _ i hi).symm, and_mask_testBit_lt _ i hi⟩
  · intro f st inv inv2 st2 h
    unfold walletdb.SaveInvoice at h
    by_cases hc : f.saveFails
    · simp [hc] at h
    · simp only [hc, if_false, Bool.false_eq_true] at h
      obtain ⟨h1, h2⟩ := Prod.mk.injEq .. ▸ h
      refine ⟨walletdb.toDisk inv, ?_, ?_, ?_, ?_⟩
      · rw [← h2]
      · exact and_mask_testBit63 _
      · rw [← Except.ok.inj h1]
        exact or_high_testBit63 _
      · intro i hi
        rw [← Except.ok.inj h1]
        exact ⟨(or_high_testBit_lt _ i hi).symm, and_mask_testBit_lt _ i hi⟩
  · intro f st v h
    unfold walletdb.FindFirstUnusedInvoice at h
    by_cases hc : f.findFirstFails
    · simp [hc] at h
    · simp only [hc, if_false, Bool.false_eq_true] at h
      have h1 := Except.ok.inj h
      cases hf : st.invoices.find? (fun r => r.state = walletdb.InvoiceState.registered) with
      | none => rw [hf] at h1; simp at h1
      | some r =>
        rw [hf] at h1
        have hv : v = walletdb.setHighBit r := (Option.some.inj h1).symm
        subst hv
        exact ⟨or_high_testBit63 _,
               ⟨r, List.mem_of_find?_eq_some hf,
                fun i hi => or_high_testBit_lt _ i hi⟩⟩
  · intro f st hash v h
    unfold walletdb.FindByPaymentHash at h
    by_cases hc : f.findByHashFails
    · simp [hc] at h
    · simp only [hc, if_false, Bool.false_eq_true] at h
      cases hf : st.invoices.find? (fun r => r.paymentHash = hash) with
      | none => rw [hf] at h; simp at h
      | some r =>
        rw [hf] at h
        have hv : v = walletdb.setHighBit r := (Except.ok.inj h).symm
        subst hv
        exact ⟨or_high_testBit63 _,
               ⟨r, List.mem_of_find?_eq_some hf,
                fun i hi => or_high_testBit_lt _ i hi⟩⟩

/-- Witness for C5: the round trip at a concrete create on the empty
store. -/
theorem shortChanId_high_bit_round_trip_witness :
    ∃ disk, (({ invoices := [walletdb.toDisk { wInvoice with id := 1 }],
                nextId := 2 } : walletdb.Store)).invoices =
        wEmptyStore.invoices ++ [disk] ∧
      disk.shortChanId.testBit 63 = false ∧
      (walletdb.setHighBit (walletdb.toDisk { wInvoice with id := 1 })).shortChanId.testBit 63 = true ∧
      (∀ i, i < 63 →
        disk.shortChanId.testBit i =
          (walletdb.setHighBit (walletdb.toDisk { wInvoice with id := 1 })).shortChanId.testBit i ∧
        disk.shortChanId.testBit i = wInvoice.shortChanId.testBit i) :=
  shortChanId_high_bit_round_trip.1 wFaults wEmptyStore wInvoice
    (walletdb.setHighBit (walletdb.toDisk { wInvoice with id := 1 }))
    { invoices := [walletdb.toDisk { wInvoice with id := 1 }], nextId := 2 }
    rfl

/-- C8: when the store holds no Registered record, CreateInvoice returns
the empty string with no error and the store unchanged; and
FindFirstUnusedInvoice only ever returns a Registered record (never a Used
one). -/
theorem createInvoice_no_unused_not_error :
    (∀ (env : CreateEnv) (f : DBFaults) (opts : InvoiceOptions) (now : Nat)
        (st : walletdb.Store),
      f.openFails = false → f.findFirstFails = false →
      (∀ r ∈ st.invoices, r.state ≠ walletdb.InvoiceState.registered) →
      CreateInvoice env f opts now st = (.ok "", st)) ∧
    (∀ (f : DBFaults) (st : walletdb.Store) (v : walletdb.Invoice),
      walletdb.FindFirstUnusedInvoice f st = .ok (some v) →
      v.state = walletdb.InvoiceState.registered ∧
      v.state ≠ walletdb.InvoiceState.used) := by
  constructor
  · intro env f opts now st ho hff hreg
    have hnone : st.invoices.find?
        (fun r => r.state = walletdb.InvoiceState.registered) = none := by
      rw [List.find?_eq_none]
      intro x hx
      simpa using hreg x hx
    unfold CreateInvoice walletdb.FindFirstUnusedInvoice
    simp [ho, hff, hnone]
  · intro f st v h
    unfold walletdb.FindFirstUnusedInvoice at h
    by_cases hc : f.findFirstFails
    · simp [hc] at h
    · simp only [hc, if_false, Bool.false_eq_true] at h
      have h1 := Except.ok.inj h
      cases hf : st.invoices.find? (fun r => r.state = walletdb.InvoiceState.registered) with
      | none => rw [hf] at h1; simp at h1
      | some r =>
        rw [hf] at h1
        have hv : v = walletdb.setHighBit r := (Option.some.inj h1).symm
        have hr : r.state = walletdb.InvoiceState.registered := by
          have := List.find?_some hf
          simpa using this
        subst hv
        refine ⟨hr, ?_⟩
        rw [show (walletdb.setHighBit r).state = r.state from rfl, hr]
        intro hcontra
        exact walletdb.InvoiceState.noConfusion hcontra

/-- Witness for C8: on the empty store, CreateInvoice yields the empty
string without error and leaves the store untouched. -/
theorem createInvoice_no_unused_not_error_witness :
    CreateInvoice wCreateEnv wFaults wOpts 0 wEmptyStore = (.ok "", wEmptyStore) :=
  createInvoice_no_unused_not_error.1 wCreateEnv wFaults wOpts 0 wEmptyStore
    rfl rfl (by intro r hr; simp [wEmptyStore] at hr)

/-- Reduction of VerifyFulfillable to its amount/sphinx tail once the hash
length check, the lookup and the key derivation succeed. -/
theorem verifyFulfillable_reduce
    (env : VerifyEnv) (f : DBFaults) (s : IncomingSwap) (net : Nat)
    (st : walletdb.Store) (invoice : walletdb.Invoice) (hd nk : Nat)
    (hlen : s.paymentHash.length = 32)
    (ho : f.openFails = false)
    (hfind : walletdb.FindByPaymentHash f st s.paymentHash = .ok invoice)
    (hder : env.deriveTo (invoice.keyPath ++ [identityKeyChildIndex]) = some hd)
    (hec : env.ecPriv hd = some nk) :
    VerifyFulfillable env f s net st =
      (if invoice.amountSat ≠ 0 ∧ invoice.amountSat > s.paymentAmountSat then
          (.error .amountMismatch, st)
        else if s.sphinxPacket.length = 0 then (.ok (), st)
        else if env.sphinxValid s.sphinxPacket s.paymentHash
                  invoice.paymentSecret nk (amountMsat s.paymentAmountSat) net
          then (.ok (), st)
        else (.error .sphinxInvalid, st)) := by
  unfold VerifyFulfillable
  rw [hfind]
  simp [hlen, ho, hder, hec]

/-- C2: once the hash length check, the invoice lookup and the key
derivation have succeeded, VerifyFulfillable reports an amount mismatch
exactly when the stored amount is non-zero and the swap underpays it
(`payment_amount_sat < amount_sat`); overpayment and amountless records
never fail the amount check. -/
theorem verifyFulfillable_amount_check_iff
    (env : VerifyEnv) (f : DBFaults) (s : IncomingSwap) (net : Nat)
    (st : walletdb.Store) (invoice : walletdb.Invoice) (hd nk : Nat)
    (hlen : s.paymentHash.length = 32)
    (ho : f.openFails = false)
    (hfind : walletdb.FindByPaymentHash f st s.paymentHash = .ok invoice)
    (hder : env.deriveTo (invoice.keyPath ++ [identityKeyChildIndex]) = some hd)
    (hec : env.ecPriv hd = some nk) :
    (VerifyFulfillable env f s net st).1 = .error .amountMismatch ↔
      (invoice.amountSat ≠ 0 ∧ s.paymentAmountSat < invoice.amountSat) := by
  rw [verifyFulfillable_reduce env f s net st invoice hd nk hlen ho hfind hder hec]
  by_cases h0 : invoice.amountSat ≠ 0 ∧ invoice.amountSat > s.paymentAmountSat
  · rw [if_pos h0]
    exact ⟨fun _ => ⟨h0.1, h0.2⟩, fun _ => rfl⟩
  · rw [if_neg h0]
    constructor
    · intro h
      by_cases hz : s.sphinxPacket.length = 0
      · rw [if_pos hz] at h
        simp at h
      · rw [if_neg hz] at h
        split at h <;> simp_all
    · intro hc
      exact absurd ⟨hc.1, hc.2⟩ h0

/-- Witness for C2: the stored amount is 1000 and the swap pays 500, so
the call fails with the amount-mismatch error. -/
theorem verifyFulfillable_amount_check_iff_witness :
    ((VerifyFulfillable wVerifyEnv wFaults wSwap 0 wStore).1 =
        .error .amountMismatch ↔
      ((walletdb.setHighBit wInvoice).amountSat ≠ 0 ∧
        wSwap.paymentAmountSat < (walletdb.setHighBit wInvoice).amountSat)) :=
  verifyFulfillable_amount_check_iff wVerifyEnv wFaults wSwap 0 wStore
    (walletdb.setHighBit wInvoice) 0 0 (by decide) rfl rfl rfl rfl

/-- C9: when the sphinx packet is empty, VerifyFulfillable skips onion
validation and succeeds, given a 32-byte payment hash, a record found by
payment hash, a successful identity-key derivation and a passing amount
check. -/
theorem verifyFulfillable_empty_sphinx_ok
    (env : VerifyEnv) (f : DBFaults) (s : IncomingSwap) (net : Nat)
    (st : walletdb.Store) (invoice : walletdb.Invoice) (hd nk : Nat)
    (hlen : s.paymentHash.length = 32)
    (ho : f.openFails = false)
    (hfind : walletdb.FindByPaymentHash f st s.paymentHash = .ok invoice)
    (hder : env.deriveTo (invoice.keyPath ++ [identityKeyChildIndex]) = some hd)
    (hec : env.ecPriv hd = some nk)
    (hamt : ¬(invoice.amountSat ≠ 0 ∧ invoice.amountSat > s.paymentAmountSat))
    (hsphinx : s.sphinxPacket = []) :
    VerifyFulfillable env f s net st = (.ok (), st) := by
  rw [verifyFulfillable_reduce env f s net st invoice hd nk hlen ho hfind hder hec]
  rw [if_neg hamt, if_pos (by simp [hsphinx])]

/-- Witness for C9: a 1500-sat payment against the 1000-sat record with an
empty sphinx packet succeeds. -/
theorem verifyFulfillable_empty_sphinx_ok_witness :
    VerifyFulfillable wVerifyEnv wFaults wSwapOver 0 wStore = (.ok (), wStore) :=
  verifyFulfillable_empty_sphinx_ok wVerifyEnv wFaults wSwapOver 0 wStore
    (walletdb.setHighBit wInvoice) 0 0 (by decide) rfl rfl rfl rfl
    (by decide) rfl

/-- C7: Fulfill rejects structurally invalid input before any signing: a
missing htlc fails immediately with the missing-htlc error, and a
fulfillment tx that deserializes (without witnesses) to anything other
than exactly one input and one output fails with the corresponding
structural error — for every signing and serialization oracle, so no
signing influences or accompanies the outcome. -/
theorem fulfill_rejects_structural (env : FulfillEnv) (f : DBFaults)
    (s : IncomingSwap) (data : IncomingSwapFulfillmentData) (net : Nat)
    (st : walletdb.Store) :
    (s.htlc = none → Fulfill env f s data net st = (.error .missingHtlc, st)) ∧
    (∀ (htlc : IncomingSwapHtlc) (tx : MsgTx) (st1 : walletdb.Store),
      s.htlc = some htlc →
      VerifyFulfillable env.venv f s net st = (.ok (), st1) →
      env.deserializeNoWitness data.fulfillmentTx = some tx →
      (tx.txIn.length ≠ 1 →
        Fulfill env f s data net st = (.error .txInCount, st1)) ∧
      (tx.txIn.length = 1 → tx.txOut.length ≠ 1 →
        Fulfill env f s data net st = (.error .txOutCount, st1))) := by
  constructor
  · intro hnone
    unfold Fulfill
    rw [hnone]
  · intro htlc tx st1 hsome hverify hdeser
    constructor
    · intro hin
      unfold Fulfill
      rw [hsome, hverify, hdeser]
      dsimp only
      rw [if_pos hin]
    · intro hin hout
      unfold Fulfill
      rw [hsome, hverify, hdeser]
      simp [hin, hout]

/-- Witness for C7: a missing htlc fails with the missing-htlc error, and
a deserialized tx with two inputs fails with the input-count error. -/
theorem fulfill_rejects_structural_witness :
    Fulfill wFulfillEnv wFaults wSwap wData 0 wStore = (.error .missingHtlc, wStore) ∧
    Fulfill wFulfillEnv wFaults wSwapHtlc wData 0 wStore = (.error .txInCount, wStore) :=
  ⟨(fulfill_rejects_structural wFulfillEnv wFaults wSwap wData 0 wStore).1 rfl,
   ((fulfill_rejects_structural wFulfillEnv wFaults wSwapHtlc wData 0 wStore).2
      wHtlc { txIn := [0, 1], txOut := [0] } wStore rfl rfl rfl).1 (by decide)⟩

/-- A bundle accepted by the generator loop has exactly as many secrets as
requested rounds. -/
theorem buildSecrets_ok_length (sha : List Nat → List Nat)
    (draws : Nat → Draws) (dv : DeriveEnv) :
    ∀ (n i : Nat) (l : List InvoiceSecrets),
      buildSecrets sha draws dv i n = .ok l → l.length = n := by
  intro n
  induction n with
  | zero =>
    intro i l h
    unfold buildSecrets at h
    have := Except.ok.inj h
    rw [← this]
    rfl
  | succ n ih =>
    intro i l h
    unfold buildSecrets at h
    cases hm : mkSecret sha (draws i) dv with
    | error e => rw [hm] at h; exact absurd h (by simp)
    | ok s =>
      rw [hm] at h
      dsimp only at h
      cases hr : buildSecrets sha draws dv (i + 1) n with
      | error e => rw [hr] at h; exact absurd h (by simp)
      | ok rest =>
        rw [hr] at h
        dsimp only at h
        have hl := Except.ok.inj h
        rw [← hl]
        simp [ih (i + 1) rest hr]

/-- Every secret in an accepted bundle is the output of one generator
iteration. -/
theorem buildSecrets_ok_mem (sha : List Nat → List Nat)
    (draws : Nat → Draws) (dv : DeriveEnv) :
    ∀ (n i : Nat) (l : List InvoiceSecrets),
      buildSecrets sha draws dv i n = .ok l →
      ∀ sec ∈ l, ∃ j, mkSecret sha (draws j) dv = .ok sec := by
  intro n
  induction n with
  | zero =>
    intro i l h sec hsec
    unfold buildSecrets at h
    have := Except.ok.inj h
    rw [← this] at hsec
    exact absurd hsec (by simp)
  | succ n ih =>
    intro i l h sec hsec
    unfold buildSecrets at h
    cases hm : mkSecret sha (draws i) dv with
    | error e => rw [hm] at h; exact absurd h (by simp)
    | ok s =>
      rw [hm] at h
      dsimp only at h
      cases hr : buildSecrets sha draws dv (i + 1) n with
      | error e => rw [hr] at h; exact absurd h (by simp)
      | ok rest =>
        rw [hr] at h
        dsimp only at h
        have hl := Except.ok.inj h
        rw [← hl] at hsec
        rcases List.mem_cons.1 hsec with hs | hs
        · exact ⟨i, by rw [hm, hs]⟩
        · exact ih (i + 1) rest hr sec hs

/-- Field characterization of a successfully produced secret. -/
theorem mkSecret_ok_fields (sha : List Nat → List Nat) (d : Draws)
    (dv : DeriveEnv) (sec : InvoiceSecrets)
    (h : mkSecret sha d dv = .ok sec) :
    sec.preimage = d.preimage ∧ sec.paymentSecret = d.paymentSecret ∧
    sec.paymentHash = sha d.preimage ∧
    sec.keyPath = [leVal (d.levels.take 4) &&& 0x7FFFFFFF,
                   leVal (d.levels.drop 4) &&& 0x7FFFFFFF] := by
  unfold mkSecret at h
  dsimp only at h
  split at h
  · exact absurd h (by simp)
  · split at h
    · exact absurd h (by simp)
    · split at h
      · exact absurd h (by simp)
      · have hs := Except.ok.inj h
        subst hs
        exact ⟨rfl, rfl, rfl, rfl⟩

/-- Masking with 0x7FFFFFFF keeps a value below 2^31. -/
theorem and_mask31_lt (x : Nat) : x &&& 0x7FFFFFFF < 2 ^ 31 :=
  Nat.lt_of_le_of_lt Nat.and_le_right (by norm_num)

/-- C3: GenerateInvoiceSecrets enforces the cap of 5: `MaxUnusedSecrets`
is 5; the call never changes the store (the bundle is not persisted); with
`unused ≥ MaxUnusedSecrets` registered records it returns the empty
bundle; and any successfully returned bundle below the cap has exactly
`MaxUnusedSecrets − unused` secrets. -/
theorem generateInvoiceSecrets_cap (sha : List Nat → List Nat)
    (draws : Nat → Draws) (dv : DeriveEnv) (f : DBFaults)
    (st : walletdb.Store) :
    MaxUnusedSecrets = 5 ∧
    (GenerateInvoiceSecrets sha draws dv f st).2 = st ∧
    (f.openFails = false → f.countFails = false →
      MaxUnusedSecrets ≤ countRegistered st →
      GenerateInvoiceSecrets sha draws dv f st = (.ok [], st)) ∧
    (∀ (l : List InvoiceSecrets) (st2 : walletdb.Store),
      GenerateInvoiceSecrets sha draws dv f st = (.ok l, st2) →
      countRegistered st < MaxUnusedSecrets →
      l.length = MaxUnusedSecrets - countRegistered st) := by
  refine ⟨rfl, ?_, ?_, ?_⟩
  · unfold GenerateInvoiceSecrets
    repeat' split
    all_goals rfl
  · intro ho hc hcap
    unfold GenerateInvoiceSecrets walletdb.CountUnusedInvoices
    simp only [ho, hc, Bool.false_eq_true, if_false]
    rw [if_pos (show (List.filter
        (fun r => decide (r.state = walletdb.InvoiceState.registered))
        st.invoices).length ≥ MaxUnusedSecrets from hcap)]
  · intro l st2 h hlt
    unfold GenerateInvoiceSecrets at h
    by_cases ho : f.openFails
    · simp [ho] at h
    · rw [if_neg (by simp [ho])] at h
      unfold walletdb.CountUnusedInvoices at h
      by_cases hc : f.countFails
      · simp [hc] at h
      · rw [if_neg (by simp [hc])] at h
        dsimp only at h
        rw [if_neg (show ¬ (List.filter
            (fun r => decide (r.state = walletdb.InvoiceState.registered))
            st.invoices).length ≥ MaxUnusedSecrets from not_le.mpr hlt)] at h
        cases hb : buildSecrets sha draws dv 0
            (MaxUnusedSecrets - countRegistered st) with
        | error e =>
          rw [show ((st.invoices.filter
              (fun r => r.state = walletdb.InvoiceState.registered)).length)
              = countRegistered st from rfl, hb] at h
          exact absurd h (by simp)
        | ok secrets =>
          rw [show ((st.invoices.filter
              (fun r => r.state = walletdb.InvoiceState.registered)).length)
              = countRegistered st from rfl, hb] at h
          dsimp only at h
          have hp := Prod.mk.injEq .. ▸ h
          rw [← Except.ok.inj hp.1]
          exact buildSecrets_ok_length sha draws dv _ 0 secrets hb

/-- Witness for C3: with five registered rows the bundle is empty; with an
empty store the returned bundle has five secrets. -/
theorem generateInvoiceSecrets_cap_witness :
    GenerateInvoiceSecrets wSha wDraws wDeriveEnv wFaults wFullStore =
      (.ok [], wFullStore) ∧
    (List.replicate 5 wSecret).length =
      MaxUnusedSecrets - countRegistered wEmptyStore :=
  ⟨(generateInvoiceSecrets_cap wSha wDraws wDeriveEnv wFaults wFullStore).2.2.1
      rfl rfl (by decide),
   (generateInvoiceSecrets_cap wSha wDraws wDeriveEnv wFaults wEmptyStore).2.2.2
      (List.replicate 5 wSecret) wEmptyStore rfl (by decide)⟩

/-- C4: every secret in a returned bundle has `PaymentHash = SHA-256 of
preimage`; preimage, payment secret and payment hash are 32 bytes long
(given that the RNG and hash oracles have the output lengths the Go types
guarantee); and the two key-path levels are below 2^31 thanks to the
0x7FFFFFFF mask. -/
theorem generateInvoiceSecrets_secret_wellformed (sha : List Nat → List Nat)
    (draws : Nat → Draws) (dv : DeriveEnv) (f : DBFaults)
    (st : walletdb.Store) (l : List InvoiceSecrets) (st2 : walletdb.Store)
    (h : GenerateInvoiceSecrets sha draws dv f st = (.ok l, st2))
    (hsha : ∀ x, (sha x).length = 32)
    (hpre : ∀ i, (draws i).preimage.length = 32)
    (hpsec : ∀ i, (draws i).paymentSecret.length = 32) :
    ∀ sec ∈ l, sec.paymentHash = sha sec.preimage ∧
      sec.preimage.length = 32 ∧ sec.paymentSecret.length = 32 ∧
      sec.paymentHash.length = 32 ∧
      ∃ l1 l2, sec.keyPath = [l1, l2] ∧ l1 < 2 ^ 31 ∧ l2 < 2 ^ 31 := by
  have hmem : ∀ sec ∈ l, ∃ j, mkSecret sha (draws j) dv = .ok sec := by
    unfold GenerateInvoiceSecrets at h
    by_cases ho : f.openFails
    · simp [ho] at h
    · rw [if_neg (by simp [ho])] at h
      unfold walletdb.CountUnusedInvoices at h
      by_cases hc : f.countFails
      · simp [hc] at h
      · rw [if_neg (by simp [hc])] at h
        dsimp only at h
        split at h
        · have hp := Prod.mk.injEq .. ▸ h
          rw [← Except.ok.inj hp.1]
          intro sec hsec
          exact absurd hsec (by simp)
        · cases hb : buildSecrets sha draws dv 0
              ((MaxUnusedSecrets : Nat) -
                (st.invoices.filter
                  (fun r => r.state = walletdb.InvoiceState.registered)).length) with
          | error e => rw [hb] at h; exact absurd h (by simp)
          | ok secrets =>
            rw [hb] at h
            dsimp only at h
            have hp := Prod.mk.injEq .. ▸ h
            rw [← Except.ok.inj hp.1]
            exact buildSecrets_ok_mem sha draws dv _ 0 secrets hb
  intro sec hsec
  obtain ⟨j, hj⟩ := hmem sec hsec
  obtain ⟨h1, h2, h3, h4⟩ := mkSecret_ok_fields sha (draws j) dv sec hj
  refine ⟨by rw [h3, h1], ?_, ?_, ?_, ?_⟩
  · rw [h1]; exact hpre j
  · rw [h2]; exact hpsec j
  · rw [h3]; exact hsha _
  · exact ⟨_, _, h4, and_mask31_lt _, and_mask31_lt _⟩

/-- Witness for C4: the well-formedness facts at the concrete bundle the
fixtures produce. -/
theorem generateInvoiceSecrets_secret_wellformed_witness :
    wSecret.paymentHash = wSha wSecret.preimage ∧
    wSecret.preimage.length = 32 ∧ wSecret.paymentSecret.length = 32 ∧
    wSecret.paymentHash.length = 32 ∧
    ∃ l1 l2, wSecret.keyPath = [l1, l2] ∧ l1 < 2 ^ 31 ∧ l2 < 2 ^ 31 :=
  generateInvoiceSecrets_secret_wellformed wSha wDraws wDeriveEnv wFaults
    wEmptyStore (List.replicate 5 wSecret) wEmptyStore rfl
    (fun _ => by simp [wSha]) (fun _ => by simp [wDraws])
    (fun _ => by simp [wDraws]) wSecret (by simp)

/-- With a failing create, every loop iteration leaves the store exactly
as it was. -/
theorem persistLoop_createFails (f : DBFaults) (hcf : f.createFails = true) :
    ∀ (list : List InvoiceSecrets) (st : walletdb.Store),
      persistLoop f list st = st := by
  intro list
  induction list with
  | nil => intro st; rfl
  | cons s rest ih =>
    intro st
    unfold persistLoop walletdb.CreateInvoice
    simp only [hcf, if_true]
    exact ih st

/-- With a working create, the loop appends one Registered row per secret,
carrying the secret's preimage, hashes, payment secret and key path. -/
theorem persistLoop_appends (f : DBFaults) (hcf : f.createFails = false) :
    ∀ (list : List InvoiceSecrets) (st : walletdb.Store),
      ∃ added, (persistLoop f list st).invoices = st.invoices ++ added ∧
        List.Forall₂ (fun (s : InvoiceSecrets) (r : walletdb.Invoice) =>
          r.state = walletdb.InvoiceState.registered ∧
          r.preimage = s.preimage ∧ r.paymentHash = s.paymentHash ∧
          r.paymentSecret = s.paymentSecret ∧ r.keyPath = s.keyPath)
          list added := by
  intro list
  induction list with
  | nil =>
    intro st
    exact ⟨[], by simp [persistLoop], List.Forall₂.nil⟩
  | cons s rest ih =>
    intro st
    unfold persistLoop walletdb.CreateInvoice
    simp only [hcf, Bool.false_eq_true, if_false]
    obtain ⟨added, hA, hF⟩ := ih
      { invoices := st.invoices ++
          [walletdb.toDisk { invoiceOfSecret s with id := st.nextId }],
        nextId := st.nextId + 1 }
    refine ⟨walletdb.toDisk { invoiceOfSecret s with id := st.nextId } :: added,
            ?_, ?_⟩
    · rw [hA]
      simp
    · exact List.Forall₂.cons ⟨rfl, rfl, rfl, rfl, rfl⟩ hF

/-- C6 (amended): PersistInvoiceSecrets writes each secret as a Registered
record when the per-record creates succeed, but a per-record create
failure is silently ignored: whenever the database opens, the call returns
success (nil error) regardless, and with failing creates the store is left
unchanged. -/
theorem persistInvoiceSecrets_ignores_create_errors (f : DBFaults)
    (list : List InvoiceSecrets) (st : walletdb.Store)
    (ho : f.openFails = false) :
    (PersistInvoiceSecrets f list st).1 = .ok () ∧
    (f.createFails = false →
      ∃ added, (PersistInvoiceSecrets f list st).2.invoices =
          st.invoices ++ added ∧
        List.Forall₂ (fun (s : InvoiceSecrets) (r : walletdb.Invoice) =>
          r.state = walletdb.InvoiceState.registered ∧
          r.preimage = s.preimage ∧ r.paymentHash = s.paymentHash ∧
          r.paymentSecret = s.paymentSecret ∧ r.keyPath = s.keyPath)
          list added) ∧
    (f.createFails = true → (PersistInvoiceSecrets f list st).2 = st) := by
  unfold PersistInvoiceSecrets
  simp only [ho, Bool.false_eq_true, if_false]
  refine ⟨by trivial, ?_, ?_⟩
  · intro hcf
    exact persistLoop_appends f hcf list st
  · intro hcf
    exact persistLoop_createFails f hcf list st

/-- Counterexample for C6 as stated: with a store whose create operation
fails, the per-record create of the only secret fails, yet
PersistInvoiceSecrets returns success and no error reaches the caller. -/
theorem persistInvoiceSecrets_drops_create_error_cex :
    (walletdb.CreateInvoice wCreateFaults wEmptyStore (invoiceOfSecret wSecret)).1 =
      Except.error Err.storage ∧
    PersistInvoiceSecrets wCreateFaults [wSecret] wEmptyStore =
      (Except.ok (), wEmptyStore) :=
  ⟨rfl, rfl⟩

/-- Witness for the amended C6: even with failing creates the call reports
success. -/
theorem persistInvoiceSecrets_ignores_create_errors_witness :
    (PersistInvoiceSecrets wCreateFaults [wSecret] wEmptyStore).1 = .ok () :=
  (persistInvoiceSecrets_ignores_create_errors wCreateFaults [wSecret]
    wEmptyStore rfl).1

/-- C1: when CreateInvoice returns a non-empty invoice string without
error, the record selected by the store (the first Registered one) has
been saved back with state Used, `amount_sat = options.amount_sat` and
`used_at` set, in the very store state the call commits before returning;
consequently a subsequent lookup for an unused record on that state can
never select the same record again. -/
theorem createInvoice_commits_before_return (env : CreateEnv) (f : DBFaults)
    (opts : InvoiceOptions) (now : Nat) (st : walletdb.Store) (b : String)
    (st2 : walletdb.Store) (inv : walletdb.Invoice)
    (h : CreateInvoice env f opts now st = (.ok b, st2))
    (hb : b ≠ "")
    (hfind : st.invoices.find?
      (fun r => r.state = walletdb.InvoiceState.registered) = some inv) :
    (∀ r ∈ st2.invoices, r.id = inv.id →
        r.state = walletdb.InvoiceState.used ∧
        r.amountSat = opts.amountSat ∧ r.usedAt = some now) ∧
    (∃ r ∈ st2.invoices, r.id = inv.id) ∧
    (∀ (f2 : DBFaults) (v : walletdb.Invoice),
        walletdb.FindFirstUnusedInvoice f2 st2 = .ok (some v) →
        v.id ≠ inv.id) := by
  unfold CreateInvoice at h
  by_cases ho : f.openFails
  · simp [ho] at h
  rw [if_neg (by simp [ho])] at h
  cases hFF : walletdb.FindFirstUnusedInvoice f st with
  | error e =>
    rw [hFF] at h
    exact absurd h (by simp)
  | ok o =>
    have hoval : o = some (walletdb.setHighBit inv) := by
      unfold walletdb.FindFirstUnusedInvoice at hFF
      by_cases hff : f.findFirstFails
      · simp [hff] at hFF
      · rw [if_neg (by simp [hff])] at hFF
        rw [hfind] at hFF
        exact (Except.ok.inj hFF).symm
    subst hoval
    rw [hFF] at h
    dsimp only at h
    by_cases hp : env.parsePubKeyOk
    · rw [if_pos hp] at h
      by_cases hn : env.newInvoiceOk
      · rw [if_pos hn] at h
        cases hd : env.deriveTo
            ((walletdb.setHighBit inv).keyPath ++ [identityKeyChildIndex]) with
        | none => rw [hd] at h; exact absurd h (by simp)
        | some hdk =>
          rw [hd] at h
          dsimp only at h
          cases he : env.ecPriv hdk with
          | none => rw [he] at h; exact absurd h (by simp)
          | some nk =>
            rw [he] at h
            dsimp only at h
            cases hen : env.encodeResult with
            | error e => rw [hen] at h; exact absurd h (by simp)
            | ok bech =>
              rw [hen] at h
              dsimp only at h
              unfold walletdb.SaveInvoice at h
              by_cases hsv : f.saveFails
              · simp [hsv] at h
              · simp only [hsv, Bool.false_eq_true, if_false] at h
                obtain ⟨h1, h2⟩ := Prod.mk.injEq .. ▸ h
                rw [← h2]
                refine ⟨?_, ?_, ?_⟩
                · intro r hr hid
                  have hrd := replaceById_mem_eq hr hid
                  subst hrd
                  exact ⟨rfl, rfl, rfl⟩
                · exact ⟨_, replaceById_mem_self
                    (List.mem_of_find?_eq_some hfind) rfl, rfl⟩
                · intro f2 v hv
                  unfold walletdb.FindFirstUnusedInvoice at hv
                  by_cases hff2 : f2.findFirstFails
                  · simp [hff2] at hv
                  · rw [if_neg (by simp [hff2])] at hv
                    cases hf2 : (walletdb.replaceById st.invoices
                        (walletdb.toDisk
                          { walletdb.setHighBit inv with
                              amountSat := opts.amountSat,
                              state := walletdb.InvoiceState.used,
                              usedAt := some now })).find?
                        (fun r => r.state = walletdb.InvoiceState.registered) with
                    | none => rw [hf2] at hv; simp at hv
                    | some r0 =>
                      rw [hf2] at hv
                      have hvr : v = walletdb.setHighBit r0 :=
                        (Option.some.inj (Except.ok.inj hv)).symm
                      have hreg : r0.state = walletdb.InvoiceState.registered := by
                        have := List.find?_some hf2
                        simpa using this
                      intro hcontra
                      have hr0id : r0.id = inv.id := by
                        rw [hvr] at hcontra
                        exact hcontra
                      have hr0mem := List.mem_of_find?_eq_some hf2
                      have hr0 := replaceById_mem_eq hr0mem hr0id
                      rw [hr0] at hreg
                      exact walletdb.InvoiceState.noConfusion hreg
      · rw [if_neg hn] at h
        exact absurd h (by simp)
    · rw [if_neg hp] at h
      exact absurd h (by simp)

/-- Witness for C1: a concrete successful CreateInvoice on the one-row
store marks the row Used and makes it unselectable afterwards. -/
theorem createInvoice_commits_before_return_witness :
    (∀ r ∈ (CreateInvoice wCreateEnv wFaults wOpts 9 wStore).2.invoices,
        r.id = wInvoice.id →
        r.state = walletdb.InvoiceState.used ∧
        r.amountSat = wOpts.amountSat ∧ r.usedAt = some 9) ∧
    (∃ r ∈ (CreateInvoice wCreateEnv wFaults wOpts 9 wStore).2.invoices,
        r.id = wInvoice.id) ∧
    (∀ (f2 : DBFaults) (v : walletdb.Invoice),
        walletdb.FindFirstUnusedInvoice f2
          (CreateInvoice wCreateEnv wFaults wOpts 9 wStore).2 = .ok (some v) →
        v.id ≠ wInvoice.id) :=
  createInvoice_commits_before_return wCreateEnv wFaults wOpts 9 wStore
    "lnbc1" (CreateInvoice wCreateEnv wFaults wOpts 9 wStore).2 wInvoice
    rfl (by decide) rfl
